import Mathlib

/-!
# Verification of the TVGate UDP/multicast stream hub (`src/stream/udp_rtp.go`)

A shallow embedding of the hub's data model and operations:

* subscriber queues are bounded channels, modelled as a list of payloads with
  a capacity and a closed flag;
* `trySend` is the non-blocking send (`select { case ch <- data: default: }`);
* `broadcastToClients`, the coordinator's add/remove handlers (`run`),
  `closeHub` (`Close`), `transferClientsTo` (`TransferClientsTo`),
  the read-loop error branch, `hubKey` (`HubKey`) and
  `getOrCreateHub` (`GetOrCreateHub`) follow the Go source line by line;
* a per-subscriber event schedule models interleavings of reader broadcasts
  with the HTTP session consuming its queue;
* a small action system models the interleaving of the reader's
  snapshot-then-broadcast with `Close`.
-/

namespace TVGate

/-- A datagram payload: a byte sequence. -/
abbrev Frame := List Nat

/-- A subscriber delivery queue: Go's `chan []byte` of capacity `cap`.
`id` stands for channel identity, `buf` for the buffered payloads in FIFO
order, `closed` for whether `close` has been called on the channel. -/
structure Queue where
  id : Nat
  buf : List Frame
  cap : Nat
  closed : Bool
  deriving Repr, DecidableEq

/-- Non-blocking send `select { case ch <- data: default: }` on a queue that
is not closed: enqueue if there is free capacity, otherwise drop. -/
def trySend (q : Queue) (data : Frame) : Queue :=
  if q.buf.length < q.cap then { q with buf := q.buf ++ [data] } else q

/-- `StreamHub.broadcastToClients` (udp_rtp.go:190-197): one non-blocking
send of `data` to each queue of the snapshot, in order. -/
def broadcastToClients (clients : List Queue) (data : Frame) : List Queue :=
  clients.map (fun ch => trySend ch data)

/-- Go `close(ch)` on a subscriber queue. -/
def closeQueue (q : Queue) : Queue :=
  { q with closed := true }

/-- Hub state: the subscriber set (Go `Clients`), the last-frame slot,
the one-shot `Closed` signal, whether the UDP socket is open, and a ghost
log `closedQueues` of every queue the hub has closed. -/
structure Hub where
  clients : List Queue
  lastFrame : Option Frame
  closed : Bool
  socketOpen : Bool
  closedQueues : List Queue
  deriving Repr, DecidableEq

/-- The conditional priming send of the coordinator and of
`TransferClientsTo`: if the last frame is non-empty, attempt one
non-blocking send of it, else leave the queue alone. -/
def primeQueue (lastFrame : Option Frame) (q : Queue) : Queue :=
  match lastFrame with
  | some f => trySend q f
  | none => q

/-- The coordinator's add handler (`run`, udp_rtp.go:105-116): insert the
queue into the subscriber set; if `LastFrame` is non-nil, attempt one
non-blocking send of it to the new queue. -/
def runAdd (h : Hub) (ch : Queue) : Hub :=
  { h with clients := h.clients ++ [primeQueue h.lastFrame ch] }

/-- `StreamHub.Close` (udp_rtp.go:296-324): if the closed signal was already
raised, return with no change; otherwise raise it, close the UDP socket,
close every subscriber queue, and clear the subscriber set. -/
def closeHub (h : Hub) : Hub :=
  if h.closed then h
  else
    { h with
      closed := true
      socketOpen := false
      clients := []
      closedQueues := h.closedQueues ++ h.clients.map closeQueue }

/-- Deleting a queue from the subscriber set by channel identity, returning
the closed queue when it was a member (`run`, udp_rtp.go:120-123). -/
def removeClient (clients : List Queue) (chId : Nat) :
    List Queue × Option Queue :=
  match clients.find? (fun q => q.id == chId) with
  | some q => (clients.eraseP (fun q => q.id == chId), some (closeQueue q))
  | none => (clients, none)

/-- Outcome of the coordinator's remove handler: the hub afterwards, the
queue it closed (if the event's queue was still a member), and whether it
invoked `Close`. -/
structure RemoveResult where
  hub : Hub
  closedQueue : Option Queue
  closeInvoked : Bool
  deriving Repr, DecidableEq

/-- The coordinator's remove handler (`run`, udp_rtp.go:118-130): if the
queue is still a member, delete and close it; then, whatever the membership
check said, invoke `Close` whenever the remaining count is zero. -/
def runRemove (h : Hub) (chId : Nat) : RemoveResult :=
  let res := removeClient h.clients chId
  let h' := { h with clients := res.1 }
  let invoke := res.1.length == 0
  { hub := if invoke then closeHub h' else h'
    closedQueue := res.2
    closeInvoked := invoke }

/-- `StreamHub.TransferClientsTo` (udp_rtp.go:276-291): for each queue of
the source set, attempt one non-blocking send of the destination's last
frame when it is non-nil, send the queue on the destination's `AddCh`, and
delete it from the source set.  Returns the source subscriber set
afterwards and the queues sent on the destination's `AddCh`, in order. -/
def transferClientsTo (src : List Queue) (dstLastFrame : Option Frame) :
    List Queue × List Queue :=
  (([] : List Queue), src.map (primeQueue dstLastFrame))

/-- What the reader does after `ReadFromUDP` returns an error
(udp_rtp.go:157-168): exit the loop, or sleep 100 ms and retry, having
logged the error or not. -/
inductive ReadErrorAction where
  | exitLoop : ReadErrorAction
  | retryAfterSleep (logged : Bool) : ReadErrorAction
  deriving Repr, DecidableEq

/-- The read-loop error branch (udp_rtp.go:157-168): if the closed signal
is observed, return; otherwise log unless the error is `net.ErrClosed`,
sleep 100 ms, and continue. -/
def readLoopOnError (closedSignalled : Bool) (errIsNetClosed : Bool) :
    ReadErrorAction :=
  if closedSignalled then ReadErrorAction.exitLoop
  else ReadErrorAction.retryAfterSleep (!errIsNetClosed)

/-- `HubKey` (udp_rtp.go:329-331): `addr + "|" + strings.Join(ifaces, ",")`. -/
def hubKey (addr : String) (ifaces : List String) : String :=
  addr ++ "|" ++ String.intercalate "," ifaces

/-- The registry's view of a hub: its identity and whether its closed
signal is raised. -/
structure RegHub where
  hubId : Nat
  closed : Bool
  deriving Repr, DecidableEq

/-- The global `Hubs` map, as an association list from hub key to hub. -/
abbrev Registry := List (String × RegHub)

/-- `Hubs[key]` lookup. -/
def lookupHub (reg : Registry) (key : String) : Option RegHub :=
  (reg.find? (fun e => e.fst == key)).map Prod.snd

/-- `delete(Hubs, key)`. -/
def eraseHub (reg : Registry) (key : String) : Registry :=
  reg.filter (fun e => e.fst != key)

/-- `Hubs[key] = hub`: map assignment, replacing any entry for `key`. -/
def insertHub (reg : Registry) (key : String) (hub : RegHub) : Registry :=
  eraseHub reg key ++ [(key, hub)]

/-- `GetOrCreateHub` (udp_rtp.go:336-360).  `newHubResult` is the outcome
that `NewStreamHub(udpAddr, ifaces)` would produce when called (it opens
the socket, which may fail): `none` for an error, `some nh` for a fresh
hub.  Returns the registry afterwards and the hub returned to the caller
(`none` for the error return). -/
def getOrCreateHub (reg : Registry) (udpAddr : String) (ifaces : List String)
    (newHubResult : Option RegHub) : Registry × Option RegHub :=
  let key := hubKey udpAddr ifaces
  match lookupHub reg key with
  | some hub =>
    if hub.closed then
      match newHubResult with
      | none => (eraseHub reg key, none)
      | some nh => (insertHub (eraseHub reg key) key nh, some nh)
    else
      (reg, some hub)
  | none =>
    match newHubResult with
    | none => (reg, none)
    | some nh => (insertHub reg key nh, some nh)

/-!
## Per-subscriber delivery schedule

The events one subscriber queue sees between its join and its exit:
`recv d` is the reader successfully processing datagram `d` and performing
its non-blocking send to this queue (udp_rtp.go:170-197); `consume` is the
HTTP session taking one payload off the queue and writing it to the
response (udp_rtp.go:225-250).
-/

/-- One event in a subscriber's life. -/
inductive SubEvent where
  | recv (d : Frame)
  | consume
  deriving Repr, DecidableEq

/-- A subscriber's view: its queue contents, the capacity, the payloads
delivered to its HTTP response so far, and (ghost) the datagrams the
reader processed since the join. -/
structure SubState where
  queue : List Frame
  cap : Nat
  delivered : List Frame
  received : List Frame
  deriving Repr, DecidableEq

/-- One step of a subscriber's schedule: a reader datagram is appended to
the queue unless the queue is full (drop-on-overflow), a consume moves the
front of the queue to the delivered sequence. -/
def subStep (s : SubState) : SubEvent → SubState
  | SubEvent.recv d =>
    { s with
      queue := if s.queue.length < s.cap then s.queue ++ [d] else s.queue
      received := s.received ++ [d] }
  | SubEvent.consume =>
    match s.queue with
    | [] => s
    | d :: rest => { s with queue := rest, delivered := s.delivered ++ [d] }

/-- Run a subscriber schedule from a state. -/
def subRun (s : SubState) (evs : List SubEvent) : SubState :=
  evs.foldl subStep s

/-- The state of a subscriber at its join: empty queue of capacity 20
(udp_rtp.go:210), nothing delivered, nothing received yet. -/
def subInit : SubState :=
  { queue := [], cap := 20, delivered := [], received := [] }

/-- `True` when no reader datagram of the schedule ever finds the queue
full, i.e. the queue never overflows during the run. -/
def noOverflowRun (s : SubState) : List SubEvent → Bool
  | [] => true
  | e :: es =>
    (match e with
     | SubEvent.recv _ => decide (s.queue.length < s.cap)
     | SubEvent.consume => true)
    && noOverflowRun (subStep s e) es

/-!
## Reader broadcast vs `Close`: interleavings

`readLoop` takes its snapshot of the subscriber set under the hub mutex
(udp_rtp.go:174-180) but releases the mutex before `broadcastToClients`
performs its sends (udp_rtp.go:183, 190-197).  `Close` (udp_rtp.go:296-312)
can therefore run between the snapshot and a send, closing every queue of
the snapshot.  The action system below models exactly this window; each
action is one mutex-protected critical section or one send of the
broadcast loop.
-/

/-- Hub state as seen by the reader/`Close` interleaving: the subscriber
set (queue identities), the identities already closed, the hub closed
flag, the reader's pending snapshot, and a ghost log of the sends the
broadcast loop performed, each tagged with whether its target queue was
already closed at that moment (in Go, a send on a closed channel panics). -/
structure RaceState where
  clients : List Nat
  closedIds : List Nat
  hubClosed : Bool
  snapshot : Option (List Nat)
  sends : List (Nat × Bool)
  deriving Repr, DecidableEq

/-- One scheduler action: the reader's snapshot critical section, the body
of `Close`, or one non-blocking send of the broadcast loop to position `i`
of the snapshot. -/
inductive RaceAction where
  | readerSnapshot
  | closeHub
  | readerSend (i : Nat)
  deriving Repr, DecidableEq

/-- One interleaving step; `none` when the action is not enabled.
`readerSnapshot` is enabled once a UDP read has succeeded, whether or not
`Close` runs concurrently, because `readLoop` re-checks `Closed` only at
the top of the next iteration. -/
def raceStep (s : RaceState) : RaceAction → Option RaceState
  | RaceAction.readerSnapshot =>
    if s.snapshot = none then some { s with snapshot := some s.clients }
    else none
  | RaceAction.closeHub =>
    if s.hubClosed then some s
    else
      some { s with
        hubClosed := true
        closedIds := s.closedIds ++ s.clients
        clients := [] }
  | RaceAction.readerSend i =>
    match s.snapshot with
    | none => none
    | some snap =>
      match snap.get? i with
      | none => none
      | some chId =>
        some { s with sends := s.sends ++ [(chId, s.closedIds.contains chId)] }

/-- Run a schedule of actions; the whole run fails if any action is not
enabled. -/
def raceRun (s : RaceState) : List RaceAction → Option RaceState
  | [] => some s
  | a :: as =>
    match raceStep s a with
    | none => none
    | some s' => raceRun s' as

/-- A hub with one subscriber, nothing closed, the reader between its UDP
read and its snapshot. -/
def raceInit : RaceState :=
  { clients := [0], closedIds := [], hubClosed := false, snapshot := none
    sends := [] }

/-!
## Theorems
-/

/-- C1: for every datagram payload the reader processes and every
subscriber queue in the snapshot, the broadcast performs exactly one
non-blocking send attempt per queue — the queue at position `i` of the
result is exactly `trySend` of the queue at position `i` of the snapshot,
so a full queue drops the payload for that subscriber only while every
other queue still receives its own send attempt. -/
theorem broadcastToClients_pointwise (clients : List Queue) (data : Frame) :
    (broadcastToClients clients data).length = clients.length
    ∧ ∀ (i : Nat) (ch : Queue), clients[i]? = some ch →
        (broadcastToClients clients data)[i]? = some (trySend ch data)
        ∧ (ch.buf.length < ch.cap →
            (trySend ch data).buf = ch.buf ++ [data])
        ∧ (¬ ch.buf.length < ch.cap → trySend ch data = ch) := by
  refine ⟨List.length_map _ _,
    fun i ch hch => ⟨?_, fun h => by simp [trySend, h], fun h => by simp [trySend, h]⟩⟩
  simp [broadcastToClients, List.getElem?_map, hch]

/-- Witness for C1: on a snapshot of one free queue and one full queue,
the free queue gets the payload appended and the full queue is unchanged. -/
theorem broadcastToClients_pointwise_witness :
    (broadcastToClients [⟨0, [], 2, false⟩, ⟨1, [[5]], 1, false⟩] [7])[0]?
      = some (trySend ⟨0, [], 2, false⟩ [7])
    ∧ (trySend (⟨0, [], 2, false⟩ : Queue) [7]).buf = [] ++ [[7]]
    ∧ trySend (⟨1, [[5]], 1, false⟩ : Queue) [7] = ⟨1, [[5]], 1, false⟩ := by
  have h := broadcastToClients_pointwise [⟨0, [], 2, false⟩, ⟨1, [[5]], 1, false⟩] [7]
  exact ⟨(h.2 0 _ (by decide)).1, (h.2 0 _ (by decide)).2.1 (by decide),
    (h.2 1 _ (by decide)).2.2 (by decide)⟩

/-- C2: the claimed invariant "once a queue has been closed, no send on it
is ever performed" is violated by a reachable interleaving.  From a hub
with one subscriber, the schedule "reader takes its snapshot and releases
the mutex; `Close` runs and closes the queue; the broadcast loop performs
its send" is enabled at every step and ends with a send recorded against a
queue that is already closed (in Go, a panic). -/
theorem send_after_close_reachable :
    raceRun raceInit
      [RaceAction.readerSnapshot, RaceAction.closeHub, RaceAction.readerSend 0]
      = some { clients := [], closedIds := [0], hubClosed := true,
               snapshot := some [0], sends := [(0, true)] }
    ∧ (0, true) ∈ [((0 : Nat), true)] := by decide

/-- C3: when the coordinator processes an add event while `last_frame` is
non-empty, it inserts the queue into the subscriber set and performs one
non-blocking send of `last_frame` to it: a queue with room gets the frame
appended, a full queue is unchanged, and a fresh (empty) queue holds the
frame as its first payload. -/
theorem runAdd_primes_new_queue (h : Hub) (ch : Queue) (f : Frame)
    (hlf : h.lastFrame = some f) :
    (runAdd h ch).clients = h.clients ++ [trySend ch f]
    ∧ (ch.buf.length < ch.cap → (trySend ch f).buf = ch.buf ++ [f])
    ∧ (¬ ch.buf.length < ch.cap → trySend ch f = ch)
    ∧ (ch.buf = [] → 0 < ch.cap → (trySend ch f).buf = [f]) := by
  refine ⟨by simp [runAdd, primeQueue, hlf], fun h => by simp [trySend, h],
    fun h => by simp [trySend, h], fun hb hc => ?_⟩
  simp [trySend, hb, hc]

/-- Witness for C3: a fresh capacity-20 queue joining a hub whose last
frame is `[9]` ends up registered with `[9]` as its first payload. -/
theorem runAdd_primes_new_queue_witness :
    (runAdd ⟨[], some [9], false, true, []⟩ ⟨0, [], 20, false⟩).clients
      = [] ++ [trySend ⟨0, [], 20, false⟩ [9]]
    ∧ (trySend (⟨0, [], 20, false⟩ : Queue) [9]).buf = [[9]] := by
  have h := runAdd_primes_new_queue ⟨[], some [9], false, true, []⟩ ⟨0, [], 20, false⟩ [9] rfl
  exact ⟨h.1, h.2.2.2 rfl (by decide)⟩

theorem closeHub_closed_eq (h : Hub) : (closeHub h).closed = true := by
  by_cases hc : h.closed = true <;> simp [closeHub, hc]

theorem closeHub_idem (h : Hub) : closeHub (closeHub h) = closeHub h := by
  by_cases hc : h.closed = true <;> simp [closeHub, hc]

/-- C5: `Close` is idempotent — `N ≥ 1` invocations have the effect of
one.  The first effective call raises the closed signal, closes the UDP
socket, closes every subscriber queue, and clears the subscriber set; a
call that observes the closed signal returns without state change. -/
theorem close_idempotent (h : Hub) (n : Nat) (hn : 1 ≤ n) :
    closeHub^[n] h = closeHub h
    ∧ (h.closed = false →
        (closeHub h).closed = true
        ∧ (closeHub h).socketOpen = false
        ∧ (closeHub h).clients = []
        ∧ (closeHub h).closedQueues = h.closedQueues ++ h.clients.map closeQueue
        ∧ ∀ q ∈ h.clients, (closeQueue q).closed = true)
    ∧ (h.closed = true → closeHub h = h) := by
  refine ⟨?_, fun hc => ?_, fun hc => by simp [closeHub, hc]⟩
  · induction n with
    | zero => omega
    | succ m ih =>
      rcases Nat.eq_or_lt_of_le hn with h1 | h1
      · rw [← h1]
        exact Function.iterate_one closeHub ▸ rfl
      · rw [Function.iterate_succ_apply', ih (by omega), closeHub_idem]
  · simp [closeHub, hc, closeQueue]

/-- Witness for C5: closing a one-subscriber hub three times equals
closing it once, and the single close raises the signal and clears the
subscriber set. -/
theorem close_idempotent_witness :
    closeHub^[3] ⟨[⟨0, [], 20, false⟩], none, false, true, []⟩
      = closeHub ⟨[⟨0, [], 20, false⟩], none, false, true, []⟩
    ∧ (closeHub ⟨[⟨0, [], 20, false⟩], none, false, true, []⟩).closed = true
    ∧ (closeHub ⟨[⟨0, [], 20, false⟩], none, false, true, []⟩).clients = [] := by
  have h := close_idempotent ⟨[⟨0, [], 20, false⟩], none, false, true, []⟩ 3 (by decide)
  exact ⟨h.1, (h.2.1 rfl).1, (h.2.1 rfl).2.2.1⟩

/-- C7 counterexample: when the reader's UDP receive fails with
`net.ErrClosed` while the hub's closed signal has not yet been observed,
the reader does not exit — it skips the log, sleeps 100 ms and retries,
contradicting the claim that a "socket closed" error alone makes the
reader return. -/
theorem readLoop_errClosed_retries :
    readLoopOnError false true = ReadErrorAction.retryAfterSleep false
    ∧ readLoopOnError false true ≠ ReadErrorAction.exitLoop := by decide

/-- C7 amended: the reader exits the loop exactly when the closed signal
has been observed; otherwise it sleeps 100 ms and retries, logging the
error unless it is `net.ErrClosed` (which is suppressed silently). -/
theorem readLoopOnError_cases :
    (∀ e, readLoopOnError true e = ReadErrorAction.exitLoop)
    ∧ readLoopOnError false true = ReadErrorAction.retryAfterSleep false
    ∧ readLoopOnError false false = ReadErrorAction.retryAfterSleep true := by decide

/-- C10 counterexample: the claim's second example pair does not collide —
`HubKey("a|x", [])` is `"a|x|"` while `HubKey("a", ["x"])` is `"a|x"`. -/
theorem hubKey_example_not_colliding :
    hubKey "a|x" [] ≠ hubKey "a" ["x"] := by decide

/-- C10 amended: `HubKey` is not injective — `("a", ["x","y"])` and
`("a", ["x,y"])` collide, as do `("a|b", ["c"])` and `("a", ["b|c"])`,
and `GetOrCreateHub` consequently returns the hub registered under the
colliding key for a distinct source configuration. -/
theorem hubKey_not_injective :
    hubKey "a" ["x", "y"] = hubKey "a" ["x,y"]
    ∧ (("a", ["x", "y"]) : String × List String) ≠ ("a", ["x,y"])
    ∧ hubKey "a|b" ["c"] = hubKey "a" ["b|c"]
    ∧ (("a|b", ["c"]) : String × List String) ≠ ("a", ["b|c"])
    ∧ (getOrCreateHub [(hubKey "a" ["x,y"], ⟨7, false⟩)] "a" ["x", "y"] none).2
        = some ⟨7, false⟩ := by decide

theorem subRun_cons (s : SubState) (e : SubEvent) (es : List SubEvent) :
    subRun s (e :: es) = subRun (subStep s e) es := rfl

theorem subStep_sublist (s : SubState) (e : SubEvent)
    (h : (s.delivered ++ s.queue).Sublist s.received) :
    ((subStep s e).delivered ++ (subStep s e).queue).Sublist (subStep s e).received := by
  cases e with
  | recv d =>
    by_cases hq : s.queue.length < s.cap
    · simpa [subStep, hq, ← List.append_assoc] using h.append (List.Sublist.refl [d])
    · simp only [subStep, if_neg hq]
      exact h.trans (List.sublist_append_left _ _)
  | consume =>
    cases hq : s.queue with
    | nil =>
      have hs : subStep s SubEvent.consume = s := by simp [subStep, hq]
      rw [hs]
      exact h
    | cons d rest =>
      have h' := hq ▸ h
      simpa [subStep, hq, List.append_assoc] using h'

theorem subRun_sublist_inv (evs : List SubEvent) :
    ∀ s : SubState, (s.delivered ++ s.queue).Sublist s.received →
      ((subRun s evs).delivered ++ (subRun s evs).queue).Sublist
        (subRun s evs).received := by
  induction evs with
  | nil => intro s h; exact h
  | cons e es ih =>
    intro s h
    rw [subRun_cons]
    exact ih (subStep s e) (subStep_sublist s e h)

theorem subRun_eq_inv (evs : List SubEvent) :
    ∀ s : SubState, noOverflowRun s evs = true →
      s.delivered ++ s.queue = s.received →
      (subRun s evs).delivered ++ (subRun s evs).queue = (subRun s evs).received := by
  induction evs with
  | nil => intro s _ h; exact h
  | cons e es ih =>
    intro s hno h
    simp only [noOverflowRun, Bool.and_eq_true] at hno
    rw [subRun_cons]
    refine ih (subStep s e) hno.2 ?_
    cases e with
    | recv d =>
      have hq : s.queue.length < s.cap := by simpa using hno.1
      simp [subStep, hq, ← List.append_assoc, h]
    | consume =>
      cases hq : s.queue with
      | nil =>
        have hs : subStep s SubEvent.consume = s := by simp [subStep, hq]
        rw [hs]
        exact h
      | cons d rest =>
        have h' := hq ▸ h
        simpa [subStep, hq, List.append_assoc] using h'

/-- C4: over any schedule of reader datagrams and HTTP-session consumes
starting at the join, the delivered sequence is an order-preserving
subsequence of the datagrams the reader processed after the join; when the
queue never overflows, delivered-plus-pending equals the receive sequence
exactly, and once the queue is drained the delivered sequence equals the
receive sequence. -/
theorem subscriber_delivery (evs : List SubEvent) :
    ((subRun subInit evs).delivered ++ (subRun subInit evs).queue).Sublist
        (subRun subInit evs).received
    ∧ (subRun subInit evs).delivered.Sublist (subRun subInit evs).received
    ∧ (noOverflowRun subInit evs = true →
        (subRun subInit evs).delivered ++ (subRun subInit evs).queue
          = (subRun subInit evs).received)
    ∧ (noOverflowRun subInit evs = true → (subRun subInit evs).queue = [] →
        (subRun subInit evs).delivered = (subRun subInit evs).received) := by
  have h1 := subRun_sublist_inv evs subInit (by simp [subInit])
  refine ⟨h1, (List.sublist_append_left _ _).trans h1,
    fun hno => subRun_eq_inv evs subInit hno (by simp [subInit]),
    fun hno hq => ?_⟩
  have h2 := subRun_eq_inv evs subInit hno (by simp [subInit])
  simpa [hq] using h2

/-- Witness for C4: a concrete non-overflowing, fully drained schedule
delivers exactly the two received datagrams in order. -/
theorem subscriber_delivery_witness :
    (subRun subInit
        [SubEvent.recv [1], SubEvent.consume, SubEvent.recv [2], SubEvent.consume]).delivered
      = (subRun subInit
        [SubEvent.recv [1], SubEvent.consume, SubEvent.recv [2], SubEvent.consume]).received
    ∧ (subRun subInit
        [SubEvent.recv [1], SubEvent.consume, SubEvent.recv [2], SubEvent.consume]).delivered
      = [[1], [2]] := by
  have h := subscriber_delivery
    [SubEvent.recv [1], SubEvent.consume, SubEvent.recv [2], SubEvent.consume]
  exact ⟨h.2.2.2 (by decide) (by decide), by decide⟩

/-- C9 counterexample: a subscriber whose queue already holds a payload at
transfer time (and is not full) does not receive the destination's last
frame as its next payload — the frame is appended after the leftover, so
the next payload is the leftover. -/
theorem transfer_next_payload_cex :
    transferClientsTo [⟨0, [[1]], 20, false⟩] (some [2])
      = ([], [⟨0, [[1], [2]], 20, false⟩])
    ∧ (⟨0, [[1]], 20, false⟩ : Queue).buf.length < (⟨0, [[1]], 20, false⟩ : Queue).cap
    ∧ (⟨0, [[1], [2]], 20, false⟩ : Queue).buf.head? = some [1]
    ∧ ([1] : Frame) ≠ [2] := by decide

/-- C9 amended: `transfer_clients_to` empties the source set, hands every
queue (primed by one non-blocking send of the destination's last frame) to
the destination's add channel, closes no queue, appends the frame to every
not-full queue — so that queue receives the frame after its already-queued
payloads, and as its next payload exactly when it was empty — and leaves
full queues unchanged. -/
theorem transferClientsTo_spec (src : List Queue) (f : Frame) :
    (transferClientsTo src (some f)).1 = []
    ∧ (transferClientsTo src (some f)).2 = src.map (primeQueue (some f))
    ∧ (transferClientsTo src none).2 = src
    ∧ ∀ q ∈ src,
        (primeQueue (some f) q).closed = q.closed
        ∧ (primeQueue (some f) q).id = q.id
        ∧ (q.buf.length < q.cap → (primeQueue (some f) q).buf = q.buf ++ [f])
        ∧ (¬ q.buf.length < q.cap → primeQueue (some f) q = q)
        ∧ (q.buf = [] → 0 < q.cap → (primeQueue (some f) q).buf = [f]) := by
  have hnone : primeQueue none = id := funext fun q => rfl
  refine ⟨rfl, rfl, by simp [transferClientsTo, hnone], fun q _ => ?_⟩
  refine ⟨?_, ?_, fun hr => by simp [primeQueue, trySend, hr],
    fun hr => by simp [primeQueue, trySend, hr], fun hb hc => ?_⟩
  · by_cases hr : q.buf.length < q.cap <;> simp [primeQueue, trySend, hr]
  · by_cases hr : q.buf.length < q.cap <;> simp [primeQueue, trySend, hr]
  · simp [primeQueue, trySend, hb, hc]

/-- Witness for C9's amended claim: transferring one empty queue to a hub
with last frame `[5]` empties the source, keeps the queue open, and primes
it with `[5]`. -/
theorem transferClientsTo_spec_witness :
    (transferClientsTo [⟨0, [], 20, false⟩] (some [5])).1 = []
    ∧ (primeQueue (some [5]) ⟨0, [], 20, false⟩).closed = false
    ∧ (primeQueue (some [5]) (⟨0, [], 20, false⟩ : Queue)).buf = [[5]] := by
  have h := transferClientsTo_spec [⟨0, [], 20, false⟩] [5]
  exact ⟨h.1, (h.2.2.2 ⟨0, [], 20, false⟩ (by decide)).1,
    (h.2.2.2 ⟨0, [], 20, false⟩ (by decide)).2.2.2.2 rfl (by decide)⟩

theorem find?_id_of_mem (clients : List Queue) (chId : Nat) (q : Queue)
    (hnd : (clients.map Queue.id).Nodup) (hq : q ∈ clients) (hid : q.id = chId) :
    clients.find? (fun r => r.id == chId) = some q := by
  induction clients with
  | nil => cases hq
  | cons c cs ih =>
    by_cases hc : c.id = chId
    · have hfind : (c :: cs).find? (fun r => r.id == chId) = some c :=
        List.find?_cons_of_pos _ (by simpa using hc)
      rcases List.mem_cons.mp hq with rfl | hq'
      · exact hfind
      · exfalso
        have hmem : q.id ∈ cs.map Queue.id := List.mem_map_of_mem _ hq'
        have hnotin := (List.nodup_cons.mp hnd).1
        rw [hid, ← hc] at hmem
        exact hnotin hmem
    · have hstep : (c :: cs).find? (fun r => r.id == chId)
          = cs.find? (fun r => r.id == chId) :=
        List.find?_cons_of_neg _ (by simpa using hc)
      have hq' : q ∈ cs := by
        rcases List.mem_cons.mp hq with rfl | hmem
        · exact absurd hid hc
        · exact hmem
      rw [hstep]
      exact ih (List.nodup_cons.mp hnd).2 hq'

theorem eraseP_id_ne (clients : List Queue) (chId : Nat)
    (hnd : (clients.map Queue.id).Nodup) :
    ∀ r ∈ clients.eraseP (fun q => q.id == chId), r.id ≠ chId := by
  induction clients with
  | nil => intro r hr; cases hr
  | cons c cs ih =>
    intro r hr
    by_cases hc : c.id = chId
    · rw [List.eraseP_cons_of_pos (by simpa using hc)] at hr
      intro hrid
      have hmem : r.id ∈ cs.map Queue.id := List.mem_map_of_mem _ hr
      have hnotin := (List.nodup_cons.mp hnd).1
      rw [hrid, ← hc] at hmem
      exact hnotin hmem
    · rw [List.eraseP_cons_of_neg (by simpa using hc)] at hr
      rcases List.mem_cons.mp hr with rfl | hr'
      · exact hc
      · exact ih (List.nodup_cons.mp hnd).2 r hr'

theorem removeClient_of_mem (clients : List Queue) (chId : Nat) (q : Queue)
    (hnd : (clients.map Queue.id).Nodup) (hq : q ∈ clients) (hid : q.id = chId) :
    removeClient clients chId
      = (clients.eraseP (fun r => r.id == chId), some (closeQueue q)) := by
  unfold removeClient
  rw [find?_id_of_mem clients chId q hnd hq hid]

theorem runRemove_hub_clients (h : Hub) (chId : Nat) :
    (runRemove h chId).hub.clients = (removeClient h.clients chId).1 := by
  simp only [runRemove]
  by_cases hz : (removeClient h.clients chId).1.length = 0
  · have hnil : (removeClient h.clients chId).1 = [] := List.length_eq_zero.mp hz
    by_cases hc : h.closed = true <;> simp [closeHub, hz, hnil, hc]
  · simp [hz]

theorem runRemove_closedQueue (h : Hub) (chId : Nat) :
    (runRemove h chId).closedQueue = (removeClient h.clients chId).2 := by
  simp [runRemove]

theorem runRemove_closeInvoked (h : Hub) (chId : Nat) :
    (runRemove h chId).closeInvoked = ((removeClient h.clients chId).1.length == 0) := by
  simp [runRemove]

/-- C6: the coordinator's remove handler deletes and closes the event's
queue when it is still a member (so the remaining count drops by one and
no queue with that identity remains), and it invokes `Close` exactly when
the count after the processing is zero, so the hub is closed within the
same event. -/
theorem runRemove_spec (h : Hub) (chId : Nat)
    (hnd : (h.clients.map Queue.id).Nodup) :
    (∀ q ∈ h.clients, q.id = chId →
        (runRemove h chId).closedQueue = some (closeQueue q)
        ∧ (closeQueue q).closed = true
        ∧ (runRemove h chId).hub.clients.length + 1 = h.clients.length
        ∧ ∀ r ∈ (runRemove h chId).hub.clients, r.id ≠ chId)
    ∧ ((runRemove h chId).closeInvoked = true
        ↔ (runRemove h chId).hub.clients.length = 0)
    ∧ ((runRemove h chId).closeInvoked = true →
        (runRemove h chId).hub.closed = true) := by
  refine ⟨fun q hq hid => ?_, ?_, fun hinv => ?_⟩
  · have hrc := removeClient_of_mem h.clients chId q hnd hq hid
    have hlen : (h.clients.eraseP (fun r => r.id == chId)).length
        = h.clients.length - 1 :=
      List.length_eraseP_of_mem hq (by simpa using hid)
    have hpos : 0 < h.clients.length := List.length_pos.mpr (by
      intro hnil
      rw [hnil] at hq
      cases hq)
    refine ⟨by rw [runRemove_closedQueue, hrc], by simp [closeQueue],
      ?_, fun r hr => ?_⟩
    · rw [runRemove_hub_clients, hrc]
      simp only [hlen]
      omega
    · rw [runRemove_hub_clients, hrc] at hr
      exact eraseP_id_ne h.clients chId hnd r hr
  · rw [runRemove_closeInvoked, runRemove_hub_clients]
    simp
  · rw [runRemove_closeInvoked] at hinv
    simp [runRemove, hinv, closeHub_closed_eq]

/-- Witness for C6: removing the only subscriber closes its queue, makes
the count zero, and the hub ends the event with its closed signal raised. -/
theorem runRemove_spec_witness :
    (runRemove ⟨[⟨0, [], 20, false⟩], none, false, true, []⟩ 0).closedQueue
      = some (closeQueue ⟨0, [], 20, false⟩)
    ∧ (runRemove ⟨[⟨0, [], 20, false⟩], none, false, true, []⟩ 0).closeInvoked = true
    ∧ (runRemove ⟨[⟨0, [], 20, false⟩], none, false, true, []⟩ 0).hub.closed = true := by
  have h := runRemove_spec ⟨[⟨0, [], 20, false⟩], none, false, true, []⟩ 0 (by decide)
  exact ⟨(h.1 ⟨0, [], 20, false⟩ (by decide) rfl).1, by decide, h.2.2 (by decide)⟩

theorem find?_eraseHub_none (reg : Registry) (key : String) :
    (eraseHub reg key).find? (fun e => e.fst == key) = none := by
  rw [List.find?_eq_none]
  intro x hx
  have h2 := (List.mem_filter.mp hx).2
  simpa using h2

theorem lookupHub_eraseHub (reg : Registry) (key : String) :
    lookupHub (eraseHub reg key) key = none := by
  simp [lookupHub, find?_eraseHub_none]

theorem lookupHub_insertHub (reg : Registry) (key : String) (hub : RegHub) :
    lookupHub (insertHub reg key hub) key = some hub := by
  simp [lookupHub, insertHub, List.find?_append, find?_eraseHub_none]

/-- C8: `GetOrCreateHub` returns a registered non-closed hub unchanged
without constructing anything; on a registered closed hub it deletes the
stale entry and either inserts and returns the freshly constructed hub or,
when construction fails, returns the error leaving the registry without an
entry for the key. -/
theorem getOrCreateHub_spec (reg : Registry) (addr : String) (ifaces : List String) :
    (∀ hub : RegHub, lookupHub reg (hubKey addr ifaces) = some hub →
        hub.closed = false →
        ∀ nhr : Option RegHub, getOrCreateHub reg addr ifaces nhr = (reg, some hub))
    ∧ (∀ hub nh : RegHub, lookupHub reg (hubKey addr ifaces) = some hub →
        hub.closed = true →
        getOrCreateHub reg addr ifaces (some nh)
          = (insertHub (eraseHub reg (hubKey addr ifaces)) (hubKey addr ifaces) nh,
             some nh)
        ∧ lookupHub (getOrCreateHub reg addr ifaces (some nh)).1 (hubKey addr ifaces)
            = some nh)
    ∧ (∀ hub : RegHub, lookupHub reg (hubKey addr ifaces) = some hub →
        hub.closed = true →
        getOrCreateHub reg addr ifaces none = (eraseHub reg (hubKey addr ifaces), none)
        ∧ lookupHub (getOrCreateHub reg addr ifaces none).1 (hubKey addr ifaces)
            = none) := by
  refine ⟨fun hub hl hc nhr => ?_, fun hub nh hl hc => ?_, fun hub hl hc => ?_⟩
  · simp [getOrCreateHub, hl, hc]
  · constructor
    · simp [getOrCreateHub, hl, hc]
    · simp [getOrCreateHub, hl, hc, lookupHub_insertHub]
  · constructor
    · simp [getOrCreateHub, hl, hc]
    · simp [getOrCreateHub, hl, hc, lookupHub_eraseHub]

/-- Witness for C8: a live registered hub is returned as-is; a stale
closed entry is replaced by the new hub, and a failed construction leaves
no entry under the key. -/
theorem getOrCreateHub_spec_witness :
    getOrCreateHub [(hubKey "a" ["x"], ⟨1, false⟩)] "a" ["x"] none
      = ([(hubKey "a" ["x"], ⟨1, false⟩)], some ⟨1, false⟩)
    ∧ getOrCreateHub [(hubKey "a" ["x"], ⟨1, true⟩)] "a" ["x"] (some ⟨2, false⟩)
      = (insertHub (eraseHub [(hubKey "a" ["x"], ⟨1, true⟩)] (hubKey "a" ["x"]))
          (hubKey "a" ["x"]) ⟨2, false⟩, some ⟨2, false⟩)
    ∧ lookupHub (getOrCreateHub [(hubKey "a" ["x"], ⟨1, true⟩)] "a" ["x"] none).1
        (hubKey "a" ["x"]) = none := by
  have h1 := getOrCreateHub_spec [(hubKey "a" ["x"], ⟨1, false⟩)] "a" ["x"]
  have h2 := getOrCreateHub_spec [(hubKey "a" ["x"], ⟨1, true⟩)] "a" ["x"]
  exact ⟨h1.1 ⟨1, false⟩ (by decide) rfl none,
    (h2.2.1 ⟨1, true⟩ ⟨2, false⟩ (by decide) rfl).1,
    (h2.2.2 ⟨1, true⟩ (by decide) rfl).2⟩

end TVGate
